import Mathlib

/-!
Shallow embedding of the garbage-code-hunter issue-detection and scoring
pipeline (src/analyzer.rs, src/scoring.rs, src/rules/duplication.rs).

Conventions of the embedding:
* Rust `f64` arithmetic is modelled exactly over `ℚ` (all constants in the
  source are decimal literals; the claims are about the algebraic structure
  of the computation, not about rounding).
* Rust `String` values that the core logic inspects character by character
  (the duplication detector) are modelled as `List Char`; `to_lowercase` is
  modelled on its ASCII fragment by `Char.toLower`.
* The cosmetic rotating message chosen by `issues.len() % N` is modelled by
  the selected index `msgIdx : Nat` (the message text itself is never
  inspected by any component).
* `HashMap` accumulation keyed by strings is modelled by an association
  list in first-insertion order; every claim below is insensitive to the
  iteration order of the map.
-/

namespace GarbageCodeHunter

/-- `Severity` from src/analyzer.rs: `Mild | Spicy | Nuclear`. -/
inductive Severity where
  | Mild
  | Spicy
  | Nuclear
deriving DecidableEq, Repr

/-- `CodeIssue` from src/analyzer.rs (the `roast_level` field, dead code for
the core, is omitted; `message` is modelled by the rotation index chosen at
push time, see module comment). -/
structure CodeIssue where
  filePath : String
  line : Nat
  column : Nat
  ruleName : String
  msgIdx : Nat
  severity : Severity
deriving DecidableEq, Repr

/-- `QualityLevel` from src/scoring.rs. -/
inductive QualityLevel where
  | Excellent
  | Good
  | Average
  | Poor
  | Terrible
deriving DecidableEq, Repr

/-- `QualityLevel::from_score`: `match score as u32 { 0..=20 => Excellent, ... }`.
The Rust `f64 as u32` cast truncates toward zero and saturates at 0 for
negative values, which on the reachable range is `score.floor.toNat`. -/
def QualityLevel.from_score (score : ℚ) : QualityLevel :=
  let n : Nat := ⌊score⌋.toNat
  if n ≤ 20 then QualityLevel.Excellent
  else if n ≤ 40 then QualityLevel.Good
  else if n ≤ 60 then QualityLevel.Average
  else if n ≤ 80 then QualityLevel.Poor
  else QualityLevel.Terrible

/-- `SeverityDistribution` from src/scoring.rs. -/
structure SeverityDistribution where
  nuclear : Nat
  spicy : Nat
  mild : Nat
deriving DecidableEq, Repr

/-- `CodeQualityScore` from src/scoring.rs. -/
structure CodeQualityScore where
  total_score : ℚ
  category_scores : List (String × ℚ)
  file_count : Nat
  total_lines : Nat
  issue_density : ℚ
  severity_distribution : SeverityDistribution
  quality_level : QualityLevel
deriving DecidableEq, Repr

/-- The category table shared by `calculate_category_scores` and
`calculate_normalized_category_scores` in src/scoring.rs (lines 350-388). -/
def categories : List (String × List String) :=
  [("naming", ["terrible-naming", "single-letter-variable"]),
   ("complexity", ["deep-nesting", "long-function", "cyclomatic-complexity"]),
   ("duplication", ["code-duplication"]),
   ("rust-basics", ["unwrap-abuse", "unnecessary-clone"]),
   ("advanced-rust",
     ["complex-closure", "lifetime-abuse", "trait-complexity", "generic-abuse"]),
   ("rust-features",
     ["channel-abuse", "async-abuse", "dyn-trait-abuse", "unsafe-abuse",
      "ffi-abuse", "macro-abuse"]),
   ("structure",
     ["module-complexity", "pattern-matching-abuse", "reference-abuse",
      "box-abuse", "slice-abuse"])]

/-- The per-category `(excellent, good, average, poor)` density thresholds of
`CodeScorer::calculate_category_score` (src/scoring.rs lines 426-436). -/
def categoryThresholds (category : String) : ℚ × ℚ × ℚ × ℚ :=
  if category = "naming" then (0, 2, 5, 10)
  else if category = "complexity" then (0, 1, 3, 6)
  else if category = "duplication" then (0, 1/2, 2, 4)
  else if category = "rust-basics" then (0, 1, 3, 6)
  else if category = "advanced-rust" then (0, 1/2, 2, 4)
  else if category = "rust-features" then (0, 1/2, 3/2, 3)
  else if category = "structure" then (0, 1, 3, 6)
  else (0, 1, 3, 6)

/-- The threshold-to-score ladder of `CodeScorer::calculate_category_score`
(src/scoring.rs lines 438-456), factored over the four thresholds. -/
def thresholdScore (e g a p d : ℚ) : ℚ :=
  if d ≤ e then 0
  else if d ≤ g then (d - e) / (g - e) * 20
  else if d ≤ a then 20 + (d - g) / (a - g) * 20
  else if d ≤ p then 40 + (d - a) / (p - a) * 20
  else min (60 + (d - p) * 2) 90

/-- `CodeScorer::calculate_category_score` (src/scoring.rs lines 412-457). -/
def calculate_category_score (issue_count total_lines : Nat) (category : String) : ℚ :=
  if total_lines = 0 then 0
  else
    let d : ℚ := (issue_count : ℚ) / (total_lines : ℚ) * 1000
    let t := categoryThresholds category
    thresholdScore t.1 t.2.1 t.2.2.1 t.2.2.2 d

/-- Number of issues whose `rule_name` belongs to the given category rule
list (the counting loop of src/scoring.rs lines 391-399). -/
def categoryCount (issues : List CodeIssue) (rules : List String) : Nat :=
  issues.countP (fun i => rules.contains i.ruleName)

/-- `CodeScorer::calculate_normalized_category_scores` (src/scoring.rs lines
341-409): every category of the table receives a score, using count 0 when
it has no matching issue. -/
def calculate_normalized_category_scores
    (issues : List CodeIssue) (total_lines : Nat) : List (String × ℚ) :=
  categories.map (fun c =>
    (c.1, calculate_category_score (categoryCount issues c.2) total_lines c.1))

/-- The category weight table of `calculate_weighted_final_score`
(src/scoring.rs lines 462-470). -/
def categoryWeights : List (String × ℚ) :=
  [("naming", 1/4), ("complexity", 1/5), ("duplication", 3/20),
   ("rust-basics", 3/20), ("advanced-rust", 1/10), ("rust-features", 1/10),
   ("structure", 1/20)]

/-- `CodeScorer::calculate_weighted_final_score` (src/scoring.rs lines
460-487): fold the weight table, accumulating `score × weight` and the
weight itself for every category present in the map. -/
def calculate_weighted_final_score (category_scores : List (String × ℚ)) : ℚ :=
  let acc := categoryWeights.foldl (fun acc cw =>
    match category_scores.lookup cw.1 with
    | some s => (acc.1 + s * cw.2, acc.2 + cw.2)
    | none => acc) ((0 : ℚ), (0 : ℚ))
  if 0 < acc.2 then acc.1 / acc.2 else 100

/-- `CodeScorer::calculate_severity_distribution` (src/scoring.rs lines
182-200). -/
def calculate_severity_distribution (issues : List CodeIssue) : SeverityDistribution :=
  { nuclear := issues.countP (fun i => i.severity == Severity.Nuclear)
    spicy := issues.countP (fun i => i.severity == Severity.Spicy)
    mild := issues.countP (fun i => i.severity == Severity.Mild) }

/-- `CodeScorer::calculate_score` (src/scoring.rs lines 134-180). Note the
empty-issue early return produces `total_score = 100.0` (commented "Perfect
score when no issues") together with a hard-coded `Excellent` level. -/
def calculate_score (issues : List CodeIssue) (file_count total_lines : Nat) :
    CodeQualityScore :=
  if issues.isEmpty then
    { total_score := 100
      category_scores := []
      file_count := file_count
      total_lines := total_lines
      issue_density := 0
      severity_distribution := { nuclear := 0, spicy := 0, mild := 0 }
      quality_level := QualityLevel.Excellent }
  else
    let severity_distribution := calculate_severity_distribution issues
    let category_scores := calculate_normalized_category_scores issues total_lines
    let total_score := calculate_weighted_final_score category_scores
    let issue_density : ℚ :=
      if 0 < total_lines then (issues.length : ℚ) / (total_lines : ℚ) * 1000 else 0
    { total_score := total_score
      category_scores := category_scores
      file_count := file_count
      total_lines := total_lines
      issue_density := issue_density
      severity_distribution := severity_distribution
      quality_level := QualityLevel.from_score total_score }

/-! ### Lemmas about the threshold ladder -/

/-- All four threshold tuples of the source satisfy
`excellent = 0 < good < average < poor`. -/
lemma categoryThresholds_sound (category : String) :
    (categoryThresholds category).1 = 0 ∧
    (categoryThresholds category).1 < (categoryThresholds category).2.1 ∧
    (categoryThresholds category).2.1 < (categoryThresholds category).2.2.1 ∧
    (categoryThresholds category).2.2.1 < (categoryThresholds category).2.2.2 := by
  unfold categoryThresholds
  split_ifs <;> norm_num

lemma thresholdScore_b1 {e g a p d : ℚ} (h1 : d ≤ e) :
    thresholdScore e g a p d = 0 := by
  rw [thresholdScore, if_pos h1]

lemma thresholdScore_b2 {e g a p d : ℚ} (h1 : ¬d ≤ e) (h2 : d ≤ g) :
    thresholdScore e g a p d = (d - e) / (g - e) * 20 := by
  rw [thresholdScore, if_neg h1, if_pos h2]

lemma thresholdScore_b3 {e g a p d : ℚ} (h1 : ¬d ≤ e) (h2 : ¬d ≤ g) (h3 : d ≤ a) :
    thresholdScore e g a p d = 20 + (d - g) / (a - g) * 20 := by
  rw [thresholdScore, if_neg h1, if_neg h2, if_pos h3]

lemma thresholdScore_b4 {e g a p d : ℚ} (h1 : ¬d ≤ e) (h2 : ¬d ≤ g) (h3 : ¬d ≤ a)
    (h4 : d ≤ p) :
    thresholdScore e g a p d = 40 + (d - a) / (p - a) * 20 := by
  rw [thresholdScore, if_neg h1, if_neg h2, if_neg h3, if_pos h4]

lemma thresholdScore_b5 {e g a p d : ℚ} (h1 : ¬d ≤ e) (h2 : ¬d ≤ g) (h3 : ¬d ≤ a)
    (h4 : ¬d ≤ p) :
    thresholdScore e g a p d = min (60 + (d - p) * 2) 90 := by
  rw [thresholdScore, if_neg h1, if_neg h2, if_neg h3, if_neg h4]

lemma thresholdScore_nonneg {e g a p : ℚ} (he : e < g) (hg : g < a) (ha : a < p)
    (d : ℚ) : 0 ≤ thresholdScore e g a p d := by
  rcases le_or_lt d e with h1 | h1
  · rw [thresholdScore_b1 h1]
  · rcases le_or_lt d g with h2 | h2
    · rw [thresholdScore_b2 (not_le.mpr h1) h2]
      have : (0 : ℚ) ≤ (d - e) / (g - e) := div_nonneg (by linarith) (by linarith)
      nlinarith
    · rcases le_or_lt d a with h3 | h3
      · rw [thresholdScore_b3 (by linarith) (not_le.mpr h2) h3]
        have : (0 : ℚ) ≤ (d - g) / (a - g) := div_nonneg (by linarith) (by linarith)
        nlinarith
      · rcases le_or_lt d p with h4 | h4
        · rw [thresholdScore_b4 (by linarith) (by linarith) (not_le.mpr h3) h4]
          have : (0 : ℚ) ≤ (d - a) / (p - a) := div_nonneg (by linarith) (by linarith)
          nlinarith
        · rw [thresholdScore_b5 (by linarith) (by linarith) (by linarith)
            (not_le.mpr h4)]
          exact le_min (by linarith) (by norm_num)

lemma thresholdScore_le_20 {e g a p d : ℚ} (he : e < g) (hd : d ≤ g) :
    thresholdScore e g a p d ≤ 20 := by
  rcases le_or_lt d e with h1 | h1
  · rw [thresholdScore_b1 h1]; norm_num
  · rw [thresholdScore_b2 (not_le.mpr h1) hd]
    have : (d - e) / (g - e) ≤ 1 := (div_le_one (by linarith)).mpr (by linarith)
    nlinarith

lemma thresholdScore_le_40 {e g a p d : ℚ} (he : e < g) (hg : g < a) (hd : d ≤ a) :
    thresholdScore e g a p d ≤ 40 := by
  rcases le_or_lt d g with h2 | h2
  · exact le_trans (thresholdScore_le_20 he h2) (by norm_num)
  · rw [thresholdScore_b3 (by linarith) (not_le.mpr h2) hd]
    have : (d - g) / (a - g) ≤ 1 := (div_le_one (by linarith)).mpr (by linarith)
    nlinarith

lemma thresholdScore_le_60 {e g a p d : ℚ} (he : e < g) (hg : g < a) (ha : a < p)
    (hd : d ≤ p) : thresholdScore e g a p d ≤ 60 := by
  rcases le_or_lt d a with h3 | h3
  · exact le_trans (thresholdScore_le_40 he hg h3) (by norm_num)
  · rw [thresholdScore_b4 (by linarith) (by linarith) (not_le.mpr h3) hd]
    have : (d - a) / (p - a) ≤ 1 := (div_le_one (by linarith)).mpr (by linarith)
    nlinarith

lemma thresholdScore_le_90 {e g a p : ℚ} (he : e < g) (hg : g < a) (ha : a < p)
    (d : ℚ) : thresholdScore e g a p d ≤ 90 := by
  rcases le_or_lt d p with hd | hd
  · exact le_trans (thresholdScore_le_60 he hg ha hd) (by norm_num)
  · rw [thresholdScore_b5 (by linarith) (by linarith) (by linarith) (by linarith)]
    exact min_le_right _ _

lemma thresholdScore_ge_20 {e g a p d : ℚ} (he : e < g) (hg : g < a) (ha : a < p)
    (hd : g < d) : 20 ≤ thresholdScore e g a p d := by
  rcases le_or_lt d a with h3 | h3
  · rw [thresholdScore_b3 (by linarith) (not_le.mpr hd) h3]
    have : (0 : ℚ) ≤ (d - g) / (a - g) := div_nonneg (by linarith) (by linarith)
    nlinarith
  · rcases le_or_lt d p with h4 | h4
    · rw [thresholdScore_b4 (by linarith) (by linarith) (not_le.mpr h3) h4]
      have : (0 : ℚ) ≤ (d - a) / (p - a) := div_nonneg (by linarith) (by linarith)
      nlinarith
    · rw [thresholdScore_b5 (by linarith) (by linarith) (by linarith)
        (not_le.mpr h4)]
      exact le_min (by linarith) (by norm_num)

lemma thresholdScore_ge_40 {e g a p d : ℚ} (he : e < g) (hg : g < a) (ha : a < p)
    (hd : a < d) : 40 ≤ thresholdScore e g a p d := by
  rcases le_or_lt d p with h4 | h4
  · rw [thresholdScore_b4 (by linarith) (by linarith) (not_le.mpr hd) h4]
    have : (0 : ℚ) ≤ (d - a) / (p - a) := div_nonneg (by linarith) (by linarith)
    nlinarith
  · rw [thresholdScore_b5 (by linarith) (by linarith) (by linarith)
      (not_le.mpr h4)]
    exact le_min (by linarith) (by norm_num)

lemma thresholdScore_ge_60 {e g a p d : ℚ} (he : e < g) (hg : g < a) (ha : a < p)
    (hd : p < d) : 60 ≤ thresholdScore e g a p d := by
  rw [thresholdScore_b5 (by linarith) (by linarith) (by linarith) (by linarith)]
  exact le_min (by linarith) (by norm_num)

/-- The threshold ladder is monotone in the density. -/
lemma thresholdScore_mono {e g a p d1 d2 : ℚ} (he : e < g) (hg : g < a) (ha : a < p)
    (hd : d1 ≤ d2) : thresholdScore e g a p d1 ≤ thresholdScore e g a p d2 := by
  rcases le_or_lt d2 e with h2 | h2
  · rw [thresholdScore_b1 (le_trans hd h2), thresholdScore_b1 h2]
  · rcases le_or_lt d2 g with h2g | h2g
    · rcases le_or_lt d1 e with h1 | h1
      · rw [thresholdScore_b1 h1]
        exact thresholdScore_nonneg he hg ha d2
      · rw [thresholdScore_b2 (not_le.mpr h1) (le_trans hd h2g),
          thresholdScore_b2 (not_le.mpr h2) h2g]
        have hge : (0 : ℚ) < g - e := by linarith
        have : (d1 - e) / (g - e) ≤ (d2 - e) / (g - e) :=
          (div_le_div_iff_of_pos_right hge).mpr (by linarith)
        nlinarith
    · rcases le_or_lt d2 a with h2a | h2a
      · rcases le_or_lt d1 g with h1 | h1
        · exact le_trans (thresholdScore_le_20 he h1)
            (thresholdScore_ge_20 he hg ha h2g)
        · rw [thresholdScore_b3 (by linarith) (not_le.mpr h1) (le_trans hd h2a),
            thresholdScore_b3 (by linarith) (not_le.mpr h2g) h2a]
          have hag : (0 : ℚ) < a - g := by linarith
          have : (d1 - g) / (a - g) ≤ (d2 - g) / (a - g) :=
            (div_le_div_iff_of_pos_right hag).mpr (by linarith)
          nlinarith
      · rcases le_or_lt d2 p with h2p | h2p
        · rcases le_or_lt d1 a with h1 | h1
          · exact le_trans (thresholdScore_le_40 he hg h1)
              (thresholdScore_ge_40 he hg ha h2a)
          · rw [thresholdScore_b4 (by linarith) (by linarith) (not_le.mpr h1)
              (le_trans hd h2p),
              thresholdScore_b4 (by linarith) (by linarith) (not_le.mpr h2a) h2p]
            have hpa : (0 : ℚ) < p - a := by linarith
            have : (d1 - a) / (p - a) ≤ (d2 - a) / (p - a) :=
              (div_le_div_iff_of_pos_right hpa).mpr (by linarith)
            nlinarith
        · rcases le_or_lt d1 p with h1 | h1
          · exact le_trans (thresholdScore_le_60 he hg ha h1)
              (thresholdScore_ge_60 he hg ha h2p)
          · rw [thresholdScore_b5 (by linarith) (by linarith) (by linarith)
              (not_le.mpr h1),
              thresholdScore_b5 (by linarith) (by linarith) (by linarith)
              (not_le.mpr h2p)]
            exact min_le_min (by linarith) (le_refl 90)

/-! ### Lemmas about the per-category score -/

lemma calculate_category_score_eq {total_lines : Nat} (h : total_lines ≠ 0)
    (issue_count : Nat) (category : String) :
    calculate_category_score issue_count total_lines category =
      thresholdScore (categoryThresholds category).1 (categoryThresholds category).2.1
        (categoryThresholds category).2.2.1 (categoryThresholds category).2.2.2
        ((issue_count : ℚ) / (total_lines : ℚ) * 1000) := by
  rw [calculate_category_score, if_neg h]

lemma calculate_category_score_nonneg (issue_count total_lines : Nat)
    (category : String) : 0 ≤ calculate_category_score issue_count total_lines category := by
  obtain ⟨h0, h1, h2, h3⟩ := categoryThresholds_sound category
  rcases Nat.eq_zero_or_pos total_lines with h | h
  · rw [calculate_category_score, if_pos h]
  · rw [calculate_category_score_eq (Nat.pos_iff_ne_zero.mp h)]
    exact thresholdScore_nonneg h1 h2 h3 _

lemma calculate_category_score_le_90 (issue_count total_lines : Nat)
    (category : String) : calculate_category_score issue_count total_lines category ≤ 90 := by
  obtain ⟨h0, h1, h2, h3⟩ := categoryThresholds_sound category
  rcases Nat.eq_zero_or_pos total_lines with h | h
  · rw [calculate_category_score, if_pos h]; norm_num
  · rw [calculate_category_score_eq (Nat.pos_iff_ne_zero.mp h)]
    exact thresholdScore_le_90 h1 h2 h3 _

lemma calculate_category_score_mono {c1 c2 : Nat} (hc : c1 ≤ c2)
    (total_lines : Nat) (category : String) :
    calculate_category_score c1 total_lines category ≤
      calculate_category_score c2 total_lines category := by
  obtain ⟨h0, h1, h2, h3⟩ := categoryThresholds_sound category
  rcases Nat.eq_zero_or_pos total_lines with h | h
  · rw [calculate_category_score, if_pos h, calculate_category_score, if_pos h]
  · rw [calculate_category_score_eq (Nat.pos_iff_ne_zero.mp h),
      calculate_category_score_eq (Nat.pos_iff_ne_zero.mp h)]
    refine thresholdScore_mono h1 h2 h3 ?_
    have hl : (0 : ℚ) < (total_lines : ℚ) := by exact_mod_cast h
    have : (c1 : ℚ) ≤ (c2 : ℚ) := by exact_mod_cast hc
    have := (div_le_div_iff_of_pos_right hl).mpr this
    nlinarith

/-- A zero issue count always yields a zero category score (the `excellent`
threshold is 0 in every row of the table). -/
lemma calculate_category_score_zero (total_lines : Nat) (category : String) :
    calculate_category_score 0 total_lines category = 0 := by
  obtain ⟨h0, h1, h2, h3⟩ := categoryThresholds_sound category
  rcases Nat.eq_zero_or_pos total_lines with h | h
  · rw [calculate_category_score, if_pos h]
  · rw [calculate_category_score_eq (Nat.pos_iff_ne_zero.mp h)]
    apply thresholdScore_b1
    rw [h0]
    simp

/-! ### Shape lemmas for the aggregation -/

/-- `calculate_normalized_category_scores` written out over the literal
category table. -/
lemma calculate_normalized_category_scores_eq (issues : List CodeIssue)
    (tl : Nat) :
    calculate_normalized_category_scores issues tl =
      [("naming", calculate_category_score
          (categoryCount issues ["terrible-naming", "single-letter-variable"]) tl "naming"),
       ("complexity", calculate_category_score
          (categoryCount issues ["deep-nesting", "long-function", "cyclomatic-complexity"]) tl "complexity"),
       ("duplication", calculate_category_score
          (categoryCount issues ["code-duplication"]) tl "duplication"),
       ("rust-basics", calculate_category_score
          (categoryCount issues ["unwrap-abuse", "unnecessary-clone"]) tl "rust-basics"),
       ("advanced-rust", calculate_category_score
          (categoryCount issues
            ["complex-closure", "lifetime-abuse", "trait-complexity", "generic-abuse"])
          tl "advanced-rust"),
       ("rust-features", calculate_category_score
          (categoryCount issues
            ["channel-abuse", "async-abuse", "dyn-trait-abuse", "unsafe-abuse",
             "ffi-abuse", "macro-abuse"]) tl "rust-features"),
       ("structure", calculate_category_score
          (categoryCount issues
            ["module-complexity", "pattern-matching-abuse", "reference-abuse",
             "box-abuse", "slice-abuse"]) tl "structure")] := rfl

/-- Value of the weighted fold on a category-score map that contains all
seven categories: the weight-sum denominator is the full `1.0`. -/
lemma calculate_weighted_final_score_eq (s1 s2 s3 s4 s5 s6 s7 : ℚ) :
    calculate_weighted_final_score
      [("naming", s1), ("complexity", s2), ("duplication", s3), ("rust-basics", s4),
       ("advanced-rust", s5), ("rust-features", s6), ("structure", s7)]
    = s1 * (1/4) + s2 * (1/5) + s3 * (3/20) + s4 * (3/20) + s5 * (1/10)
        + s6 * (1/10) + s7 * (1/20) := by
  simp [calculate_weighted_final_score, categoryWeights, List.lookup]
  norm_num

/-- `calculate_score` on a non-empty issue list, with the early return
resolved. -/
lemma calculate_score_of_ne_nil {issues : List CodeIssue} (h : issues ≠ [])
    (fc tl : Nat) :
    calculate_score issues fc tl =
      { total_score :=
          calculate_weighted_final_score (calculate_normalized_category_scores issues tl)
        category_scores := calculate_normalized_category_scores issues tl
        file_count := fc
        total_lines := tl
        issue_density :=
          if 0 < tl then (issues.length : ℚ) / (tl : ℚ) * 1000 else 0
        severity_distribution := calculate_severity_distribution issues
        quality_level := QualityLevel.from_score
          (calculate_weighted_final_score
            (calculate_normalized_category_scores issues tl)) } := by
  rw [calculate_score, if_neg (by simpa [List.isEmpty_iff] using h)]

/-- The final weight of a category name, read from the weight table. -/
def weightOf (name : String) : ℚ := (categoryWeights.lookup name).getD 0

/-- The weighted total on a non-empty issue list, written as a plain weighted
sum over the whole category table (weight-sum denominator `1`). -/
lemma total_score_eq_weighted_sum {issues : List CodeIssue} (h : issues ≠ [])
    (fc tl : Nat) :
    (calculate_score issues fc tl).total_score =
      (categories.map (fun c =>
        calculate_category_score (categoryCount issues c.2) tl c.1 * weightOf c.1)).sum := by
  rw [calculate_score_of_ne_nil h, calculate_normalized_category_scores_eq]
  rw [calculate_weighted_final_score_eq]
  simp [categories, weightOf, categoryWeights, List.lookup]
  ring

/-! ### Spec-side comparison definitions -/

/-- Written from the spec's words for the refinement comparison of claim C2:
`total_score = Σ(category_score × weight) / Σ(weight over categories actually
present)`, a category being present when it has at least one Finding, and 0
when no category has any Findings. -/
def specTotalScore (issues : List CodeIssue) (total_lines : Nat) : ℚ :=
  let present := categories.filter (fun c => decide (0 < categoryCount issues c.2))
  let wsum := (present.map (fun c => weightOf c.1)).sum
  if wsum = 0 then 0
  else
    (present.map (fun c =>
      calculate_category_score (categoryCount issues c.2) total_lines c.1 *
        weightOf c.1)).sum / wsum

/-- Written from the claim C4's words for the refinement comparison: 0 up to
`excellent`, linear 0→20 on `(excellent, good]`, linear 20→40 on
`(good, average]`, linear 40→60 on `(average, poor]`, then `60 + 2×(d − poor)`
capped at 90. -/
def specCategoryScore (e g a p d : ℚ) : ℚ :=
  if d ≤ e then 0
  else if d ≤ g then 0 + (20 - 0) * ((d - e) / (g - e))
  else if d ≤ a then 20 + (40 - 20) * ((d - g) / (a - g))
  else if d ≤ p then 40 + (60 - 40) * ((d - a) / (p - a))
  else min (60 + 2 * (d - p)) 90

/-- Six Findings that all map to the `naming` category, for the scenario of
claim C3. -/
def sixNamingIssues : List CodeIssue :=
  List.replicate 6 ⟨"lib.rs", 1, 1, "terrible-naming", 0, Severity.Mild⟩

/-! ### Claim theorems: scoring -/

/-- C1: evaluation of the code at the failing input. The claim (spec) says an
empty Finding list with `total_lines > 0` yields `total_score == 0` and
`quality_level == Excellent`; the code's early return instead produces
`total_score = 100.0` (with the level hard-coded to `Excellent`, although its
own `QualityLevel::from_score` maps 100 to `Terrible`). -/
theorem C1_empty_list_code_eval :
    (calculate_score [] 3 500).total_score = 100 ∧
    (calculate_score [] 3 500).quality_level = QualityLevel.Excellent :=
  ⟨rfl, rfl⟩

/-- C2 (counterexample): for the single Finding `terrible-naming`/`Mild` on
1000 lines the code returns `total_score = 5/2` (denominator 1, because every
category is always inserted into the score map) while the spec's formula with
present-categories-only denominator gives `10`. -/
theorem C2_denominator_counterexample :
    (calculate_score [⟨"lib.rs", 1, 1, "terrible-naming", 0, Severity.Mild⟩] 1 1000).total_score
        = 5 / 2 ∧
    specTotalScore [⟨"lib.rs", 1, 1, "terrible-naming", 0, Severity.Mild⟩] 1000 = 10 ∧
    (calculate_score [⟨"lib.rs", 1, 1, "terrible-naming", 0, Severity.Mild⟩] 1 1000).total_score
        ≠ specTotalScore [⟨"lib.rs", 1, 1, "terrible-naming", 0, Severity.Mild⟩] 1000 := by
  have hne : ([⟨"lib.rs", 1, 1, "terrible-naming", 0, Severity.Mild⟩] : List CodeIssue) ≠ [] := by
    simp
  have hn : categoryCount [⟨"lib.rs", 1, 1, "terrible-naming", 0, Severity.Mild⟩]
      ["terrible-naming", "single-letter-variable"] = 1 := by decide
  have hs : calculate_category_score 1 1000 "naming" = 10 := by
    simp [calculate_category_score, categoryThresholds, thresholdScore]
    norm_num
  have h1 : (calculate_score [⟨"lib.rs", 1, 1, "terrible-naming", 0, Severity.Mild⟩] 1 1000).total_score
      = 5 / 2 := by
    rw [total_score_eq_weighted_sum hne]
    simp [categories, weightOf, categoryWeights, List.lookup, hn, hs,
      calculate_category_score_zero, categoryCount]
    norm_num
  have h2 : specTotalScore [⟨"lib.rs", 1, 1, "terrible-naming", 0, Severity.Mild⟩] 1000 = 10 := by
    simp [specTotalScore, categories, weightOf, categoryWeights, List.lookup, hn, hs,
      categoryCount]
  exact ⟨h1, h2, by rw [h1, h2]; norm_num⟩

/-- C2 (amended): for every non-empty Finding list, `total_score` is the plain
weighted sum of the seven category sub-scores — every category of the table
is present in the score map (sub-score 0 when it has no Findings), so the
weight-sum denominator is always the full `1.0` and no category is excluded
from it; and when no category has any Findings the total is 0. -/
theorem C2_total_is_full_weighted_sum (issues : List CodeIssue) (fc tl : Nat)
    (h : issues ≠ []) :
    (calculate_score issues fc tl).total_score =
      (categories.map (fun c =>
        calculate_category_score (categoryCount issues c.2) tl c.1 * weightOf c.1)).sum ∧
    ((∀ c ∈ categories, categoryCount issues c.2 = 0) →
      (calculate_score issues fc tl).total_score = 0) := by
  refine ⟨total_score_eq_weighted_sum h fc tl, fun hall => ?_⟩
  rw [total_score_eq_weighted_sum h fc tl]
  apply List.sum_eq_zero
  intro x hx
  obtain ⟨c, hc, rfl⟩ := List.mem_map.mp hx
  rw [hall c hc, calculate_category_score_zero]
  ring

/-- C2 witness: the amended statement instantiated at one concrete input. -/
theorem C2_total_is_full_weighted_sum_witness :
    ([⟨"lib.rs", 1, 1, "terrible-naming", 0, Severity.Mild⟩] : List CodeIssue) ≠ [] ∧
    ((calculate_score [⟨"lib.rs", 1, 1, "terrible-naming", 0, Severity.Mild⟩] 1 1000).total_score =
      (categories.map (fun c =>
        calculate_category_score
          (categoryCount [⟨"lib.rs", 1, 1, "terrible-naming", 0, Severity.Mild⟩] c.2) 1000 c.1 *
          weightOf c.1)).sum ∧
    ((∀ c ∈ categories,
        categoryCount [⟨"lib.rs", 1, 1, "terrible-naming", 0, Severity.Mild⟩] c.2 = 0) →
      (calculate_score [⟨"lib.rs", 1, 1, "terrible-naming", 0, Severity.Mild⟩] 1 1000).total_score
        = 0)) :=
  ⟨by simp,
   C2_total_is_full_weighted_sum
     [⟨"lib.rs", 1, 1, "terrible-naming", 0, Severity.Mild⟩] 1 1000 (by simp)⟩

/-- C3 (counterexample): in the claimed scenario (1000 lines, 6 naming
Findings, density 6), the naming sub-score is 44, which is not strictly
between 20 and 40 — density 6 falls in the `(average, poor] = (5, 10]` band
of the naming thresholds, not in `(good, average]`. -/
theorem C3_subscore_band_counterexample :
    ((calculate_score sixNamingIssues 1 1000).category_scores.lookup "naming").getD 0 = 44 ∧
    ¬(20 < ((calculate_score sixNamingIssues 1 1000).category_scores.lookup "naming").getD 0 ∧
      ((calculate_score sixNamingIssues 1 1000).category_scores.lookup "naming").getD 0 < 40) := by
  have hne : sixNamingIssues ≠ [] := by simp [sixNamingIssues]
  have hn : categoryCount sixNamingIssues ["terrible-naming", "single-letter-variable"] = 6 := by
    decide
  have hs : calculate_category_score 6 1000 "naming" = 44 := by
    simp [calculate_category_score, categoryThresholds, thresholdScore]
    norm_num
  have hv : ((calculate_score sixNamingIssues 1 1000).category_scores.lookup "naming") = some 44 := by
    rw [calculate_score_of_ne_nil hne]
    simp only [calculate_normalized_category_scores_eq]
    simp [List.lookup, hn, hs]
  rw [hv]
  norm_num

/-- C3 (amended): in the scenario the naming sub-score is 44, strictly
between 40 and 60, and `total_score` equals the naming sub-score times the
naming weight (44 × 1/4 = 11), since every other category contributes 0. -/
theorem C3_naming_scenario :
    ((calculate_score sixNamingIssues 1 1000).category_scores.lookup "naming") = some 44 ∧
    (40 : ℚ) < 44 ∧ (44 : ℚ) < 60 ∧
    (calculate_score sixNamingIssues 1 1000).total_score = 44 * weightOf "naming" ∧
    weightOf "naming" = 1 / 4 := by
  have hne : sixNamingIssues ≠ [] := by simp [sixNamingIssues]
  have hn : categoryCount sixNamingIssues ["terrible-naming", "single-letter-variable"] = 6 := by
    decide
  have hs : calculate_category_score 6 1000 "naming" = 44 := by
    simp [calculate_category_score, categoryThresholds, thresholdScore]
    norm_num
  have hw : weightOf "naming" = 1 / 4 := by
    simp [weightOf, categoryWeights, List.lookup]
  refine ⟨?_, by norm_num, by norm_num, ?_, hw⟩
  · rw [calculate_score_of_ne_nil hne]
    simp only [calculate_normalized_category_scores_eq]
    simp [List.lookup, hn, hs]
  · rw [total_score_eq_weighted_sum hne, hw]
    simp [categories, weightOf, categoryWeights, List.lookup, hs,
      calculate_category_score_zero, categoryCount, sixNamingIssues, List.replicate]

/-- C4: for positive `total_lines` the category sub-score is exactly the
claim's piecewise-linear function of the density `count / total_lines × 1000`
over the category's four thresholds. -/
theorem C4_piecewise_linear (category : String) (issue_count total_lines : Nat)
    (h : 0 < total_lines) :
    calculate_category_score issue_count total_lines category =
      specCategoryScore (categoryThresholds category).1
        (categoryThresholds category).2.1 (categoryThresholds category).2.2.1
        (categoryThresholds category).2.2.2
        ((issue_count : ℚ) / (total_lines : ℚ) * 1000) := by
  rw [calculate_category_score_eq (Nat.pos_iff_ne_zero.mp h)]
  rw [thresholdScore, specCategoryScore]
  split_ifs <;> ring_nf

/-- C4 witness: the piecewise form instantiated at the naming category with
6 Findings on 1000 lines. -/
theorem C4_piecewise_linear_witness :
    0 < 1000 ∧
    calculate_category_score 6 1000 "naming" =
      specCategoryScore (categoryThresholds "naming").1
        (categoryThresholds "naming").2.1 (categoryThresholds "naming").2.2.1
        (categoryThresholds "naming").2.2.2 ((6 : ℚ) / (1000 : ℚ) * 1000) :=
  ⟨by norm_num, C4_piecewise_linear "naming" 6 1000 (by norm_num)⟩

/-- C5: every category sub-score lies in `[0, 90]`, and for fixed
`total_lines` the sub-score is monotone non-decreasing in the Finding count
of that category. -/
theorem C5_bounded_monotone (category : String) (c1 c2 total_lines : Nat)
    (hc : c1 ≤ c2) :
    0 ≤ calculate_category_score c1 total_lines category ∧
    calculate_category_score c1 total_lines category ≤ 90 ∧
    calculate_category_score c1 total_lines category ≤
      calculate_category_score c2 total_lines category :=
  ⟨calculate_category_score_nonneg c1 total_lines category,
   calculate_category_score_le_90 c1 total_lines category,
   calculate_category_score_mono hc total_lines category⟩

/-- C5 witness: bounds and monotonicity at a concrete instance. -/
theorem C5_bounded_monotone_witness :
    2 ≤ 5 ∧
    (0 ≤ calculate_category_score 2 1000 "naming" ∧
     calculate_category_score 2 1000 "naming" ≤ 90 ∧
     calculate_category_score 2 1000 "naming" ≤ calculate_category_score 5 1000 "naming") :=
  ⟨by norm_num, C5_bounded_monotone "naming" 2 5 1000 (by norm_num)⟩

/-- C6: with `total_lines = 0` and any non-empty Finding list, the code hits
no division: the density guard returns 0, every category sub-score is 0 by
the `total_lines == 0` early return, and the weighted total is 0. -/
theorem C6_zero_lines (issues : List CodeIssue) (fc : Nat) (h : issues ≠ []) :
    (calculate_score issues fc 0).issue_density = 0 ∧
    (∀ cs ∈ (calculate_score issues fc 0).category_scores, cs.2 = 0) ∧
    (calculate_score issues fc 0).total_score = 0 := by
  refine ⟨?_, ?_, ?_⟩
  · rw [calculate_score_of_ne_nil h]
    simp
  · rw [calculate_score_of_ne_nil h]
    intro cs hcs
    simp only [calculate_normalized_category_scores] at hcs
    obtain ⟨c, hc, rfl⟩ := List.mem_map.mp hcs
    simp [calculate_category_score]
  · rw [total_score_eq_weighted_sum h]
    apply List.sum_eq_zero
    intro x hx
    obtain ⟨c, hc, rfl⟩ := List.mem_map.mp hx
    simp [calculate_category_score]

/-- C6 witness: the zero-lines behaviour at one concrete non-empty list. -/
theorem C6_zero_lines_witness :
    ([⟨"lib.rs", 1, 1, "unwrap-abuse", 0, Severity.Nuclear⟩] : List CodeIssue) ≠ [] ∧
    ((calculate_score [⟨"lib.rs", 1, 1, "unwrap-abuse", 0, Severity.Nuclear⟩] 2 0).issue_density = 0 ∧
     (∀ cs ∈ (calculate_score [⟨"lib.rs", 1, 1, "unwrap-abuse", 0, Severity.Nuclear⟩] 2 0).category_scores,
        cs.2 = 0) ∧
     (calculate_score [⟨"lib.rs", 1, 1, "unwrap-abuse", 0, Severity.Nuclear⟩] 2 0).total_score = 0) :=
  ⟨by simp,
   C6_zero_lines [⟨"lib.rs", 1, 1, "unwrap-abuse", 0, Severity.Nuclear⟩] 2 (by simp)⟩

/-- C9: the score is a function of the multiset of `(rule_id, severity)`
pairs — two Finding lists whose pair multisets agree (in particular any
permutation, or lists differing only in message text, location or file)
receive the same `total_score`, the same `category_scores` and the same
`quality_level`. -/
theorem C9_multiset_invariance (issues1 issues2 : List CodeIssue) (fc tl : Nat)
    (hperm : (issues1.map fun i => (i.ruleName, i.severity)).Perm
      (issues2.map fun i => (i.ruleName, i.severity))) :
    (calculate_score issues1 fc tl).total_score =
      (calculate_score issues2 fc tl).total_score ∧
    (calculate_score issues1 fc tl).category_scores =
      (calculate_score issues2 fc tl).category_scores ∧
    (calculate_score issues1 fc tl).quality_level =
      (calculate_score issues2 fc tl).quality_level := by
  have hcount : ∀ rules : List String,
      categoryCount issues1 rules = categoryCount issues2 rules := by
    intro rules
    have h1 : categoryCount issues1 rules =
        (issues1.map fun i => (i.ruleName, i.severity)).countP
          (fun q => rules.contains q.1) := by
      rw [categoryCount, List.countP_map]; rfl
    have h2 : categoryCount issues2 rules =
        (issues2.map fun i => (i.ruleName, i.severity)).countP
          (fun q => rules.contains q.1) := by
      rw [categoryCount, List.countP_map]; rfl
    rw [h1, h2, hperm.countP_eq]
  by_cases hnil : issues1 = []
  · have hnil2 : issues2 = [] := by
      have hl := hperm.length_eq
      simp [hnil] at hl
      exact List.length_eq_zero.mp hl.symm
    subst hnil; subst hnil2
    exact ⟨rfl, rfl, rfl⟩
  · have hnil2 : issues2 ≠ [] := by
      intro h2
      apply hnil
      have hl := hperm.length_eq
      simp [h2] at hl
      exact hl
    have hcs : calculate_normalized_category_scores issues1 tl =
        calculate_normalized_category_scores issues2 tl := by
      unfold calculate_normalized_category_scores
      have hfun : (fun c : String × List String =>
          (c.1, calculate_category_score (categoryCount issues1 c.2) tl c.1)) =
          (fun c : String × List String =>
          (c.1, calculate_category_score (categoryCount issues2 c.2) tl c.1)) := by
        funext c
        rw [hcount]
      rw [hfun]
    rw [calculate_score_of_ne_nil hnil, calculate_score_of_ne_nil hnil2]
    exact ⟨by simp [hcs], by simp [hcs], by simp [hcs]⟩

/-- C9 witness: two lists with the same pairs in swapped order and different
message indices, locations and paths. -/
theorem C9_multiset_invariance_witness :
    ((([⟨"a.rs", 1, 1, "terrible-naming", 0, Severity.Mild⟩,
        ⟨"a.rs", 2, 1, "unwrap-abuse", 1, Severity.Spicy⟩] : List CodeIssue).map
          fun i => (i.ruleName, i.severity)).Perm
      (([⟨"b.rs", 9, 9, "unwrap-abuse", 7, Severity.Spicy⟩,
         ⟨"b.rs", 3, 2, "terrible-naming", 5, Severity.Mild⟩] : List CodeIssue).map
          fun i => (i.ruleName, i.severity))) ∧
    (calculate_score [⟨"a.rs", 1, 1, "terrible-naming", 0, Severity.Mild⟩,
        ⟨"a.rs", 2, 1, "unwrap-abuse", 1, Severity.Spicy⟩] 1 100).total_score =
      (calculate_score [⟨"b.rs", 9, 9, "unwrap-abuse", 7, Severity.Spicy⟩,
        ⟨"b.rs", 3, 2, "terrible-naming", 5, Severity.Mild⟩] 1 100).total_score :=
  ⟨by simp; exact List.Perm.swap _ _ _,
   (C9_multiset_invariance _ _ 1 100 (by simp; exact List.Perm.swap _ _ _)).1⟩

/-- C10: with at least one Finding, the total score cannot exceed 90 — every
category sub-score is capped at 90 and the seven weights sum to `1.0`. -/
theorem C10_total_at_most_90 (issues : List CodeIssue) (fc tl : Nat)
    (h : issues ≠ []) : (calculate_score issues fc tl).total_score ≤ 90 := by
  rw [total_score_eq_weighted_sum h]
  simp [categories, weightOf, categoryWeights, List.lookup]
  have b1 := calculate_category_score_le_90
    (categoryCount issues ["terrible-naming", "single-letter-variable"]) tl "naming"
  have n1 := calculate_category_score_nonneg
    (categoryCount issues ["terrible-naming", "single-letter-variable"]) tl "naming"
  have b2 := calculate_category_score_le_90
    (categoryCount issues ["deep-nesting", "long-function", "cyclomatic-complexity"])
    tl "complexity"
  have n2 := calculate_category_score_nonneg
    (categoryCount issues ["deep-nesting", "long-function", "cyclomatic-complexity"])
    tl "complexity"
  have b3 := calculate_category_score_le_90
    (categoryCount issues ["code-duplication"]) tl "duplication"
  have n3 := calculate_category_score_nonneg
    (categoryCount issues ["code-duplication"]) tl "duplication"
  have b4 := calculate_category_score_le_90
    (categoryCount issues ["unwrap-abuse", "unnecessary-clone"]) tl "rust-basics"
  have n4 := calculate_category_score_nonneg
    (categoryCount issues ["unwrap-abuse", "unnecessary-clone"]) tl "rust-basics"
  have b5 := calculate_category_score_le_90
    (categoryCount issues
      ["complex-closure", "lifetime-abuse", "trait-complexity", "generic-abuse"])
    tl "advanced-rust"
  have n5 := calculate_category_score_nonneg
    (categoryCount issues
      ["complex-closure", "lifetime-abuse", "trait-complexity", "generic-abuse"])
    tl "advanced-rust"
  have b6 := calculate_category_score_le_90
    (categoryCount issues
      ["channel-abuse", "async-abuse", "dyn-trait-abuse", "unsafe-abuse",
       "ffi-abuse", "macro-abuse"]) tl "rust-features"
  have n6 := calculate_category_score_nonneg
    (categoryCount issues
      ["channel-abuse", "async-abuse", "dyn-trait-abuse", "unsafe-abuse",
       "ffi-abuse", "macro-abuse"]) tl "rust-features"
  have b7 := calculate_category_score_le_90
    (categoryCount issues
      ["module-complexity", "pattern-matching-abuse", "reference-abuse",
       "box-abuse", "slice-abuse"]) tl "structure"
  have n7 := calculate_category_score_nonneg
    (categoryCount issues
      ["module-complexity", "pattern-matching-abuse", "reference-abuse",
       "box-abuse", "slice-abuse"]) tl "structure"
  linarith

/-- C10 witness: the bound at one concrete non-empty list. -/
theorem C10_total_at_most_90_witness :
    ([⟨"lib.rs", 1, 1, "terrible-naming", 0, Severity.Mild⟩] : List CodeIssue) ≠ [] ∧
    (calculate_score [⟨"lib.rs", 1, 1, "terrible-naming", 0, Severity.Mild⟩] 1 1000).total_score
      ≤ 90 :=
  ⟨by simp,
   C10_total_at_most_90 [⟨"lib.rs", 1, 1, "terrible-naming", 0, Severity.Mild⟩] 1 1000 (by simp)⟩

/-! ### Duplication detector (src/rules/duplication.rs)

Rust `&str` values that the detector inspects character by character are
modelled as `List Char` (ASCII model: `to_lowercase` is `Char.toLower`,
byte length is character count). -/

/-- Left-to-right non-overlapping substring replacement, the semantics of
Rust `str::replace` used by `normalize_line`. Structural recursion on a fuel
counter (each step consumes at least one character, so `l.length` fuel is
always enough and the out-of-fuel branch is unreachable). -/
def replaceListFuel (pat rep : List Char) : Nat → List Char → List Char
  | _, [] => []
  | 0, l => l
  | fuel + 1, c :: rest =>
    if pat ≠ [] ∧ pat.isPrefixOf (c :: rest) then
      rep ++ replaceListFuel pat rep fuel ((c :: rest).drop pat.length)
    else
      c :: replaceListFuel pat rep fuel rest

/-- Rust `str::replace pat rep`. -/
def replaceList (pat rep l : List Char) : List Char :=
  replaceListFuel pat rep l.length l

/-- Rust `str::trim` (remove leading and trailing whitespace). -/
def trimList (l : List Char) : List Char :=
  ((l.dropWhile Char.isWhitespace).reverse.dropWhile Char.isWhitespace).reverse

/-- `normalize_line` (src/rules/duplication.rs lines 178-185): trim, remove
all whitespace, replace `let` → `VAR`, remove `mut`, lower-case. -/
def normalize_line (line : List Char) : List Char :=
  (replaceList "mut".toList [] (replaceList "let".toList "VAR".toList
    ((trimList line).filter (fun c => !c.isWhitespace)))).map Char.toLower

/-- `is_simple_statement` (src/rules/duplication.rs lines 187-190). -/
def is_simple_statement (line : List Char) : Bool :=
  trimList line == "\x7b".toList || trimList line == "\x7d".toList ||
  trimList line == ";".toList || trimList line == "(".toList ||
  trimList line == ")".toList || trimList line == "[".toList ||
  trimList line == "]".toList

/-- The skip filter of the line loop (src/rules/duplication.rs lines 65-72):
empty, line comment, shorter than 10 characters, or trivial token line. -/
def lineSkip (trimmed : List Char) : Bool :=
  trimmed.isEmpty || "//".toList.isPrefixOf trimmed ||
  "/*".toList.isPrefixOf trimmed || decide (trimmed.length < 10) ||
  is_simple_statement trimmed

/-- `HashMap::entry(k).or_default().push(v)` modelled on an association list
in first-insertion key order. -/
def insertAssoc (k : List Char) (v : Nat) :
    List (List Char × List Nat) → List (List Char × List Nat)
  | [] => [(k, [v])]
  | g :: rest =>
    if g.1 == k then (g.1, g.2 ++ [v]) :: rest else g :: insertAssoc k v rest

/-- The accumulation loop of `detect_line_duplications`: for each enumerated
line that survives the skip filter, record `line_num + 1` under its
normalized form. -/
def buildLineHashesAux (idx : Nat) (m : List (List Char × List Nat)) :
    List (List Char) → List (List Char × List Nat)
  | [] => m
  | line :: rest =>
    if lineSkip (trimList line) then buildLineHashesAux (idx + 1) m rest
    else
      buildLineHashesAux (idx + 1)
        (insertAssoc (normalize_line (trimList line)) (idx + 1) m) rest

/-- The `line_hashes` map of `DuplicationVisitor` after the line loop. -/
def buildLineHashes (lines : List (List Char)) : List (List Char × List Nat) :=
  buildLineHashesAux 0 [] lines

/-- Severity choice of the line-duplication emission (src/rules/duplication.rs
lines 102-108): `Nuclear` at ≥ 5 occurrences, `Spicy` at ≥ 4, else `Mild`. -/
def lineSeverity (n : Nat) : Severity :=
  if 5 ≤ n then Severity.Nuclear
  else if 4 ≤ n then Severity.Spicy
  else Severity.Mild

/-- The Finding pushed by the line-duplication emission (lines 110-118):
located at the group's first occurrence (`line_numbers[0]`), column 1,
message index `issues.len() % 5`. -/
def lineIssue (path : String) (n : Nat) (g : List Char × List Nat) : CodeIssue :=
  { filePath := path, line := g.2.headD 0, column := 1,
    ruleName := "code-duplication", msgIdx := n % 5,
    severity := lineSeverity g.2.length }

/-- The emission loop of `detect_line_duplications` (lines 82-120): one
Finding per group of size ≥ 3. -/
def emitLineIssues (path : String) :
    List (List Char × List Nat) → List CodeIssue → List CodeIssue
  | [], acc => acc
  | g :: rest, acc =>
    emitLineIssues path rest
      (if 3 ≤ g.2.length then acc ++ [lineIssue path acc.length g] else acc)

/-- `DuplicationVisitor::detect_line_duplications` (lines 58-121). -/
def detect_line_duplications (path : String) (lines : List (List Char))
    (issues : List CodeIssue) : List CodeIssue :=
  emitLineIssues path (buildLineHashes lines) issues

/-- `generate_block_signature` (lines 192-200): drop whitespace, keep the
first 100 characters, lower-case. -/
def generate_block_signature (block : List Char) : List Char :=
  ((block.filter (fun c => !c.isWhitespace)).take 100).map Char.toLower

/-- The signature-grouping loop of `detect_block_duplications` (lines
127-136): blocks of serialized length > 50 keyed by signature, recording the
enumeration index. -/
def blockGroupsAux (idx : Nat) (m : List (List Char × List Nat)) :
    List (List Char) → List (List Char × List Nat)
  | [] => m
  | b :: rest =>
    if 50 < b.length then
      blockGroupsAux (idx + 1) (insertAssoc (generate_block_signature b) idx m) rest
    else blockGroupsAux (idx + 1) m rest

/-- The `block_signatures` map of `detect_block_duplications`. -/
def blockGroups (blocks : List (List Char)) : List (List Char × List Nat) :=
  blockGroupsAux 0 [] blocks

/-- The Finding pushed by the block-duplication emission (lines 153-161):
line 1, column 1, severity `Spicy`, message index `issues.len() % 4`. -/
def blockIssue (path : String) (n : Nat) : CodeIssue :=
  { filePath := path, line := 1, column := 1,
    ruleName := "code-duplication", msgIdx := n % 4,
    severity := Severity.Spicy }

/-- The emission loop of `detect_block_duplications` (lines 138-163): one
`Spicy` Finding at line 1 per signature shared by ≥ 2 blocks. -/
def emitBlockIssues (path : String) :
    List (List Char × List Nat) → List CodeIssue → List CodeIssue
  | [], acc => acc
  | g :: rest, acc =>
    emitBlockIssues path rest
      (if 2 ≤ g.2.length then acc ++ [blockIssue path acc.length] else acc)

/-- `DuplicationVisitor::detect_block_duplications` (lines 123-164). -/
def detect_block_duplications (path : String) (blocks : List (List Char))
    (issues : List CodeIssue) : List CodeIssue :=
  emitBlockIssues path (blockGroups blocks) issues

/-- `DuplicationVisitor::find_duplications` (lines 46-56): line findings
first, then block findings appended to the same vector. -/
def find_duplications (path : String) (lines blocks : List (List Char)) :
    List CodeIssue :=
  detect_block_duplications path blocks (detect_line_duplications path lines [])

/-! ### Invariants of the grouping maps -/

/-- All line numbers (or block indices) stored in the map, in group order. -/
def groupVals (m : List (List Char × List Nat)) : List Nat :=
  (m.map (fun g => g.2)).flatten

/-- The first stored occurrence of every group. -/
def groupHeads (m : List (List Char × List Nat)) : List Nat :=
  m.map (fun g => g.2.headD 0)

lemma groupVals_insertAssoc (k : List Char) (v : Nat)
    (m : List (List Char × List Nat)) :
    (groupVals (insertAssoc k v m)).Perm (v :: groupVals m) := by
  induction m with
  | nil => simp [groupVals, insertAssoc]
  | cons g rest ih =>
    rw [insertAssoc]
    by_cases hk : g.1 == k
    · rw [if_pos hk]
      simp only [groupVals, List.map_cons, List.flatten_cons, List.append_assoc,
        List.singleton_append]
      exact List.perm_middle
    · rw [if_neg hk]
      simp only [groupVals, List.map_cons, List.flatten_cons]
      exact (List.Perm.append_left g.2 ih).trans List.perm_middle

lemma insertAssoc_ne_nil {m : List (List Char × List Nat)}
    (hm : ∀ g ∈ m, g.2 ≠ []) (k : List Char) (v : Nat) :
    ∀ g ∈ insertAssoc k v m, g.2 ≠ [] := by
  induction m with
  | nil =>
    intro g hg
    simp [insertAssoc] at hg
    subst hg
    simp
  | cons g0 rest ih =>
    intro g hg
    rw [insertAssoc] at hg
    by_cases hk : g0.1 == k
    · rw [if_pos hk] at hg
      rcases List.mem_cons.mp hg with h | h
      · subst h; simp
      · exact hm g (List.mem_cons_of_mem _ h)
    · rw [if_neg hk] at hg
      rcases List.mem_cons.mp hg with h | h
      · subst h; exact hm g (List.mem_cons_self _ _)
      · exact ih (fun g' hg' => hm g' (List.mem_cons_of_mem _ hg')) g h

lemma mem_keys_insertAssoc {x : List Char} {k : List Char} {v : Nat}
    {m : List (List Char × List Nat)}
    (hx : x ∈ (insertAssoc k v m).map (fun g => g.1)) :
    x ∈ m.map (fun g => g.1) ∨ x = k := by
  induction m with
  | nil =>
    simp [insertAssoc] at hx
    exact Or.inr hx
  | cons g rest ih =>
    rw [insertAssoc] at hx
    by_cases hk : g.1 == k
    · rw [if_pos hk] at hx
      simp only [List.map_cons, List.mem_cons] at hx ⊢
      tauto
    · rw [if_neg hk] at hx
      simp only [List.map_cons, List.mem_cons] at hx ⊢
      rcases hx with h | h
      · tauto
      · rcases ih h with h2 | h2 <;> tauto

lemma insertAssoc_keys_nodup {m : List (List Char × List Nat)} (k : List Char)
    (v : Nat) (h : (m.map (fun g => g.1)).Nodup) :
    ((insertAssoc k v m).map (fun g => g.1)).Nodup := by
  induction m with
  | nil => simp [insertAssoc]
  | cons g rest ih =>
    rw [insertAssoc]
    by_cases hk : g.1 == k
    · rw [if_pos hk]
      simpa using h
    · rw [if_neg hk]
      simp only [List.map_cons, List.nodup_cons] at h ⊢
      refine ⟨fun hmem => ?_, ih h.2⟩
      rcases mem_keys_insertAssoc hmem with h2 | h2
      · exact h.1 h2
      · exact hk (by simp [h2])

/-- The invariant maintained while filling a grouping map: groups are
nonempty, stored values are distinct and bounded, and keys are distinct. -/
def HashInv (bound : Nat) (m : List (List Char × List Nat)) : Prop :=
  (∀ g ∈ m, g.2 ≠ []) ∧ (groupVals m).Nodup ∧ (∀ x ∈ groupVals m, x ≤ bound) ∧
  (m.map (fun g => g.1)).Nodup

lemma hashInv_nil : HashInv 0 [] := by
  refine ⟨by simp, by simp [groupVals], by simp [groupVals], by simp⟩

lemma hashInv_mono {bound : Nat} {m : List (List Char × List Nat)}
    (h : HashInv bound m) : HashInv (bound + 1) m :=
  ⟨h.1, h.2.1, fun x hx => Nat.le_succ_of_le (h.2.2.1 x hx), h.2.2.2⟩

lemma hashInv_insert {bound : Nat} {m : List (List Char × List Nat)}
    (h : HashInv bound m) (k : List Char) :
    HashInv (bound + 1) (insertAssoc k (bound + 1) m) := by
  obtain ⟨hne, hnd, hbd, hkeys⟩ := h
  refine ⟨insertAssoc_ne_nil hne k (bound + 1), ?_, ?_, insertAssoc_keys_nodup k _ hkeys⟩
  · refine ((groupVals_insertAssoc k (bound + 1) m).nodup_iff).mpr ?_
    rw [List.nodup_cons]
    exact ⟨fun hmem => Nat.not_succ_le_self bound (hbd _ hmem), hnd⟩
  · intro x hx
    have := (groupVals_insertAssoc k (bound + 1) m).mem_iff.mp hx
    rcases List.mem_cons.mp this with h2 | h2
    · omega
    · exact Nat.le_succ_of_le (hbd x h2)

lemma hashInv_buildLineHashesAux (lines : List (List Char)) :
    ∀ (idx : Nat) (m : List (List Char × List Nat)), HashInv idx m →
      HashInv (idx + lines.length) (buildLineHashesAux idx m lines) := by
  induction lines with
  | nil => intro idx m h; simpa [buildLineHashesAux] using h
  | cons line rest ih =>
    intro idx m h
    rw [buildLineHashesAux]
    by_cases hs : lineSkip (trimList line)
    · rw [if_pos hs]
      have := ih (idx + 1) m (hashInv_mono h)
      simpa [Nat.add_assoc, Nat.add_comm 1 rest.length] using this
    · rw [if_neg hs]
      have := ih (idx + 1) _ (hashInv_insert h (normalize_line (trimList line)))
      simpa [Nat.add_assoc, Nat.add_comm 1 rest.length] using this

lemma hashInv_buildLineHashes (lines : List (List Char)) :
    HashInv lines.length (buildLineHashes lines) := by
  have := hashInv_buildLineHashesAux lines 0 [] hashInv_nil
  simpa [buildLineHashes] using this

lemma groupHeads_sublist {m : List (List Char × List Nat)}
    (hm : ∀ g ∈ m, g.2 ≠ []) : (groupHeads m).Sublist (groupVals m) := by
  induction m with
  | nil => simp [groupHeads, groupVals]
  | cons g rest ih =>
    have hg := hm g (List.mem_cons_self _ _)
    obtain ⟨h, t, hgt⟩ : ∃ h t, g.2 = h :: t := by
      cases hgl : g.2 with
      | nil => exact absurd hgl hg
      | cons a b => exact ⟨a, b, rfl⟩
    simp only [groupHeads, groupVals, List.map_cons, List.flatten_cons, hgt,
      List.headD_cons, List.cons_append]
    refine List.Sublist.cons₂ h ?_
    exact (ih (fun g' hg' => hm g' (List.mem_cons_of_mem _ hg'))).trans
      (List.sublist_append_right t _)

lemma groupHeads_nodup {m : List (List Char × List Nat)}
    (hm : ∀ g ∈ m, g.2 ≠ []) (hnd : (groupVals m).Nodup) :
    (groupHeads m).Nodup :=
  (groupHeads_sublist hm).nodup hnd

/-! ### Emission lemmas for line duplication -/

lemma emitLineIssues_length (path : String) (m : List (List Char × List Nat)) :
    ∀ acc : List CodeIssue,
      (emitLineIssues path m acc).length =
        acc.length + (m.filter (fun g => decide (3 ≤ g.2.length))).length := by
  induction m with
  | nil => intro acc; simp [emitLineIssues]
  | cons g rest ih =>
    intro acc
    rw [emitLineIssues]
    by_cases h3 : 3 ≤ g.2.length
    · rw [if_pos h3, ih, List.filter_cons]
      simp [h3]
      omega
    · rw [if_neg h3, ih, List.filter_cons]
      simp [h3]

lemma emitLineIssues_countP (path : String) (m : List (List Char × List Nat))
    (k : Nat) :
    ∀ acc : List CodeIssue,
      (emitLineIssues path m acc).countP (fun i => i.line == k) =
        acc.countP (fun i => i.line == k) +
        (m.filter (fun g => decide (3 ≤ g.2.length) && (g.2.headD 0 == k))).length := by
  induction m with
  | nil => intro acc; simp [emitLineIssues]
  | cons g rest ih =>
    intro acc
    rw [emitLineIssues]
    by_cases h3 : 3 ≤ g.2.length
    · rw [if_pos h3, ih, List.countP_append, List.filter_cons]
      by_cases hk : (g.2.headD 0 == k) = true
      · have hpred : (decide (3 ≤ g.2.length) && (g.2.headD 0 == k)) = true := by
          rw [Bool.and_eq_true]
          exact ⟨decide_eq_true h3, hk⟩
        rw [hpred, if_pos rfl, List.length_cons]
        have hkk : g.2.headD 0 = k := eq_of_beq hk
        have hsingle : List.countP (fun i => i.line == k)
            [lineIssue path acc.length g] = 1 := by
          simp [List.countP_cons, lineIssue, ← List.headD_eq_head?_getD, hkk]
        rw [hsingle]
        omega
      · have hpred : (decide (3 ≤ g.2.length) && (g.2.headD 0 == k)) = false := by
          simp only [Bool.and_eq_false_iff]
          exact Or.inr (by simpa using hk)
        rw [hpred]
        simp only [Bool.false_eq_true, if_false]
        have hkk : ¬g.2.headD 0 = k := fun h => hk (by exact beq_iff_eq.mpr h)
        have hsingle : List.countP (fun i => i.line == k)
            [lineIssue path acc.length g] = 0 := by
          simp [List.countP_cons, lineIssue, ← List.headD_eq_head?_getD, hkk]
        rw [hsingle]
        omega
    · rw [if_neg h3, ih, List.filter_cons]
      have hpred : (decide (3 ≤ g.2.length) && (g.2.headD 0 == k)) = false := by
        simp [h3]
      rw [hpred]
      simp only [Bool.false_eq_true, if_false]

lemma emitLineIssues_mem (path : String) (m : List (List Char × List Nat)) :
    ∀ (acc : List CodeIssue) (i : CodeIssue), i ∈ emitLineIssues path m acc →
      i ∈ acc ∨ ∃ g ∈ m, 3 ≤ g.2.length ∧ i.line = g.2.headD 0 ∧
        i.severity = lineSeverity g.2.length ∧ i.ruleName = "code-duplication" ∧
        i.column = 1 ∧ i.filePath = path := by
  induction m with
  | nil =>
    intro acc i hi
    rw [emitLineIssues] at hi
    exact Or.inl hi
  | cons g rest ih =>
    intro acc i hi
    rw [emitLineIssues] at hi
    rcases ih _ i hi with hacc | ⟨g', hg', hrest⟩
    · by_cases h3 : 3 ≤ g.2.length
      · rw [if_pos h3] at hacc
        rcases List.mem_append.mp hacc with h | h
        · exact Or.inl h
        · refine Or.inr ⟨g, List.mem_cons_self _ _, h3, ?_⟩
          rcases List.mem_singleton.mp h with rfl
          simp [lineIssue]
      · rw [if_neg h3] at hacc
        exact Or.inl hacc
    · exact Or.inr ⟨g', List.mem_cons_of_mem _ hg', hrest⟩

lemma length_filter_head_le_one {m : List (List Char × List Nat)}
    (hnd : (groupHeads m).Nodup) (k : Nat) :
    (m.filter (fun g => decide (3 ≤ g.2.length) && (g.2.headD 0 == k))).length ≤ 1 := by
  induction m with
  | nil => simp
  | cons g rest ih =>
    simp only [groupHeads, List.map_cons, List.nodup_cons] at hnd
    obtain ⟨hni, hnd2⟩ := hnd
    rw [List.filter_cons]
    by_cases hp : (decide (3 ≤ g.2.length) && (g.2.headD 0 == k)) = true
    · rw [if_pos hp]
      have hempty :
          rest.filter (fun g => decide (3 ≤ g.2.length) && (g.2.headD 0 == k)) = [] := by
        by_contra hne2
        obtain ⟨g', hg'⟩ := List.exists_mem_of_ne_nil _ hne2
        obtain ⟨hg'rest, hg'pred⟩ := List.mem_filter.mp hg'
        have hk1 : g.2.headD 0 = k := eq_of_beq ((Bool.and_eq_true _ _).mp hp).2
        have hk2 : g'.2.headD 0 = k := eq_of_beq ((Bool.and_eq_true _ _).mp hg'pred).2
        exact hni (by
          rw [hk1, ← hk2]
          exact List.mem_map.mpr ⟨g', hg'rest, rfl⟩)
      rw [hempty]
      simp
    · rw [if_neg hp]
      exact ih hnd2

/-- The canonical-form groups of the C7 scenario file: three distinct
normalized lines occurring exactly 3, 4 and 6 times. -/
def c7Lines : List (List Char) :=
  ["aaaa=1111;".toList, "aaaa=1111;".toList, "aaaa=1111;".toList,
   "bbbb=2222;".toList, "bbbb=2222;".toList, "bbbb=2222;".toList, "bbbb=2222;".toList,
   "cccc=3333;".toList, "cccc=3333;".toList, "cccc=3333;".toList,
   "cccc=3333;".toList, "cccc=3333;".toList, "cccc=3333;".toList]

/-- C7: for every file, every canonical-form group of size ≥ 3 produces
exactly one Finding, located at the group's first occurrence line, with
severity `Mild` at exactly 3 occurrences, `Spicy` at exactly 4 and `Nuclear`
at 5 or more (and group keys are pairwise distinct canonical forms); in
particular the scenario file with three normalized lines occurring 3, 4 and
6 times yields exactly the three Findings `Mild`, `Spicy`, `Nuclear`. -/
theorem C7_line_duplication (path : String) (lines : List (List Char)) :
    ((detect_line_duplications path lines []).length =
        ((buildLineHashes lines).filter (fun g => decide (3 ≤ g.2.length))).length ∧
      ((buildLineHashes lines).map (fun g => g.1)).Nodup ∧
      ∀ g ∈ buildLineHashes lines, 3 ≤ g.2.length →
        ((detect_line_duplications path lines []).countP
            (fun i => i.line == g.2.headD 0) = 1 ∧
         ∀ i ∈ detect_line_duplications path lines [], i.line = g.2.headD 0 →
           i.severity =
             (if 5 ≤ g.2.length then Severity.Nuclear
              else if g.2.length = 4 then Severity.Spicy else Severity.Mild))) ∧
    ((detect_line_duplications "f.rs" c7Lines []).map (fun i => (i.line, i.severity)) =
      [(1, Severity.Mild), (4, Severity.Spicy), (8, Severity.Nuclear)]) := by
  obtain ⟨hne, hnd, hbd, hkeys⟩ := hashInv_buildLineHashes lines
  have hheads : (groupHeads (buildLineHashes lines)).Nodup := groupHeads_nodup hne hnd
  refine ⟨⟨?_, hkeys, ?_⟩, by decide⟩
  · rw [detect_line_duplications, emitLineIssues_length]
    simp
  · intro g hg h3
    constructor
    · rw [detect_line_duplications, emitLineIssues_countP]
      simp only [List.countP_nil, Nat.zero_add]
      have hle := length_filter_head_le_one hheads (g.2.headD 0)
      have hmem : g ∈ (buildLineHashes lines).filter
          (fun g' => decide (3 ≤ g'.2.length) && (g'.2.headD 0 == g.2.headD 0)) :=
        List.mem_filter.mpr ⟨hg, by simp [h3]⟩
      have hge : 1 ≤ ((buildLineHashes lines).filter
          (fun g' => decide (3 ≤ g'.2.length) && (g'.2.headD 0 == g.2.headD 0))).length :=
        List.length_pos.mpr (List.ne_nil_of_mem hmem)
      omega
    · intro i hi hline
      rcases emitLineIssues_mem path (buildLineHashes lines) [] i hi with h | h
      · exact absurd h (List.not_mem_nil i)
      · obtain ⟨g', hg', h3', hline', hsev, _, _, _⟩ := h
        have hgg : g' = g := by
          refine List.inj_on_of_nodup_map hheads hg' hg ?_
          rw [← hline', hline]
        subst hgg
        rw [hsev, lineSeverity]
        have h34 : ¬5 ≤ g'.2.length → (4 ≤ g'.2.length ↔ g'.2.length = 4) := by omega
        by_cases h5 : 5 ≤ g'.2.length
        · simp [h5]
        · simp only [if_neg h5]
          rw [if_congr (h34 h5) rfl rfl]

/-- C7 witness: the per-group statement discharged at the group of the first
scenario line (3 occurrences at lines 1, 2, 3). -/
theorem C7_line_duplication_witness :
    (("aaaa=1111;".toList, ([1, 2, 3] : List Nat)) ∈ buildLineHashes c7Lines) ∧
    3 ≤ (("aaaa=1111;".toList, ([1, 2, 3] : List Nat)) : List Char × List Nat).2.length ∧
    ((detect_line_duplications "f.rs" c7Lines []).countP
        (fun i => i.line ==
          (("aaaa=1111;".toList, ([1, 2, 3] : List Nat)) : List Char × List Nat).2.headD 0) = 1 ∧
     ∀ i ∈ detect_line_duplications "f.rs" c7Lines [],
       i.line = (("aaaa=1111;".toList, ([1, 2, 3] : List Nat)) : List Char × List Nat).2.headD 0 →
       i.severity =
         (if 5 ≤ (("aaaa=1111;".toList, ([1, 2, 3] : List Nat)) : List Char × List Nat).2.length
          then Severity.Nuclear
          else if (("aaaa=1111;".toList, ([1, 2, 3] : List Nat)) : List Char × List Nat).2.length = 4
          then Severity.Spicy else Severity.Mild)) :=
  ⟨by decide, by decide,
   (C7_line_duplication "f.rs" c7Lines).1.2.2
     ("aaaa=1111;".toList, [1, 2, 3]) (by decide) (by decide)⟩

/-! ### Emission lemmas for block duplication -/

lemma emitBlockIssues_length (path : String) (m : List (List Char × List Nat)) :
    ∀ acc : List CodeIssue,
      (emitBlockIssues path m acc).length =
        acc.length + (m.filter (fun g => decide (2 ≤ g.2.length))).length := by
  induction m with
  | nil => intro acc; simp [emitBlockIssues]
  | cons g rest ih =>
    intro acc
    rw [emitBlockIssues]
    by_cases h2 : 2 ≤ g.2.length
    · rw [if_pos h2, ih, List.filter_cons]
      simp [h2]
      omega
    · rw [if_neg h2, ih, List.filter_cons]
      simp [h2]

lemma emitBlockIssues_mem (path : String) (m : List (List Char × List Nat)) :
    ∀ (acc : List CodeIssue) (i : CodeIssue), i ∈ emitBlockIssues path m acc →
      i ∈ acc ∨ (i.severity = Severity.Spicy ∧ i.line = 1 ∧ i.column = 1 ∧
        i.ruleName = "code-duplication" ∧ i.filePath = path) := by
  induction m with
  | nil =>
    intro acc i hi
    rw [emitBlockIssues] at hi
    exact Or.inl hi
  | cons g rest ih =>
    intro acc i hi
    rw [emitBlockIssues] at hi
    rcases ih _ i hi with hacc | hprops
    · by_cases h2 : 2 ≤ g.2.length
      · rw [if_pos h2] at hacc
        rcases List.mem_append.mp hacc with h | h
        · exact Or.inl h
        · rcases List.mem_singleton.mp h with rfl
          exact Or.inr (by simp [blockIssue])
      · rw [if_neg h2] at hacc
        exact Or.inl hacc
    · exact Or.inr hprops

lemma blockGroupsAux_keys_nodup (blocks : List (List Char)) :
    ∀ (idx : Nat) (m : List (List Char × List Nat)),
      (m.map (fun g => g.1)).Nodup →
      ((blockGroupsAux idx m blocks).map (fun g => g.1)).Nodup := by
  induction blocks with
  | nil => intro idx m h; simpa [blockGroupsAux] using h
  | cons b rest ih =>
    intro idx m h
    rw [blockGroupsAux]
    by_cases hb : 50 < b.length
    · rw [if_pos hb]
      exact ih (idx + 1) _ (insertAssoc_keys_nodup _ _ h)
    · rw [if_neg hb]
      exact ih (idx + 1) m h

/-- `Char.toLower` (the ASCII model of `to_lowercase`) maps letters to
letters and leaves every other character unchanged, so it preserves
whitespace-ness. -/
lemma isWhitespace_toLower (c : Char) :
    (Char.toLower c).isWhitespace = c.isWhitespace := by
  simp only [Char.toLower]
  by_cases h : c.toNat ≥ 65 ∧ c.toNat ≤ 90
  · rw [if_pos h]
    obtain ⟨h1, h2⟩ := h
    have hc : c.isWhitespace = false := by
      have w1 : ¬(c = ' ') := fun hh => by rw [hh] at h1; exact absurd h1 (by decide)
      have w2 : ¬(c = '\t') := fun hh => by rw [hh] at h1; exact absurd h1 (by decide)
      have w3 : ¬(c = '\r') := fun hh => by rw [hh] at h1; exact absurd h1 (by decide)
      have w4 : ¬(c = '\n') := fun hh => by rw [hh] at h1; exact absurd h1 (by decide)
      simp [Char.isWhitespace, w1, w2, w3, w4]
    rw [hc]
    rw [ge_iff_le] at h1
    generalize hgen : c.toNat = n at h1 h2 ⊢
    interval_cases n <;> decide
  · rw [if_neg h]

/-- Two identical serialized blocks longer than 50 characters, for the C8
witness. -/
def c8Blocks : List (List Char) :=
  ["fnfoo()\x7bletx=1;lety=2;letz=x+y;println!(somethinglong);\x7d".toList,
   "fnfoo()\x7bletx=1;lety=2;letz=x+y;println!(somethinglong);\x7d".toList]

/-- C8: block-level duplication. The blocks longer than 50 characters are
grouped by signature (pairwise distinct signature keys), each signature
shared by ≥ 2 blocks emits exactly one Finding — `Spicy`, at line 1, column
1 — and the signature is the first 100 non-whitespace characters of the
lower-cased serialization of the block. -/
theorem C8_block_duplication (path : String) (blocks : List (List Char)) :
    (detect_block_duplications path blocks []).length =
      ((blockGroups blocks).filter (fun g => decide (2 ≤ g.2.length))).length ∧
    ((blockGroups blocks).map (fun g => g.1)).Nodup ∧
    (∀ i ∈ detect_block_duplications path blocks [],
      i.severity = Severity.Spicy ∧ i.line = 1 ∧ i.column = 1 ∧
        i.ruleName = "code-duplication") ∧
    (∀ b : List Char, generate_block_signature b =
      ((b.map Char.toLower).filter (fun c => !c.isWhitespace)).take 100) := by
  refine ⟨?_, ?_, ?_, ?_⟩
  · rw [detect_block_duplications, emitBlockIssues_length]
    simp
  · exact blockGroupsAux_keys_nodup blocks 0 [] (by simp)
  · intro i hi
    rcases emitBlockIssues_mem path (blockGroups blocks) [] i hi with h | h
    · exact absurd h (List.not_mem_nil i)
    · exact ⟨h.1, h.2.1, h.2.2.1, h.2.2.2.1⟩
  · intro b
    rw [generate_block_signature]
    have hq : (fun c => !Char.isWhitespace c) ∘ Char.toLower =
        (fun c => !Char.isWhitespace c) := by
      funext c
      simp [Function.comp, isWhitespace_toLower]
    rw [List.filter_map, hq, List.map_take]

/-- C8 witness: the emitted-Finding properties discharged at the Finding
produced by two identical 56-character blocks. -/
theorem C8_block_duplication_witness :
    (blockIssue "f.rs" 0 ∈ detect_block_duplications "f.rs" c8Blocks []) ∧
    ((blockIssue "f.rs" 0).severity = Severity.Spicy ∧
     (blockIssue "f.rs" 0).line = 1 ∧ (blockIssue "f.rs" 0).column = 1 ∧
     (blockIssue "f.rs" 0).ruleName = "code-duplication") :=
  ⟨by decide,
   (C8_block_duplication "f.rs" c8Blocks).2.2.1 (blockIssue "f.rs" 0) (by decide)⟩

end GarbageCodeHunter
